import Mathlib

/-!
# tmd: the per-path rate limiter and the list sync worker

A shallow embedding of `twitter/client.go` (the `xRateLimit` quota record, the
header parser `makeRateLimit` and the `rateLimiter` monitor with its `Check`,
`Update` and `Reset` operations) and of the sync worker `userUpdater` of
`downloading/list.go` together with `syncUser` / `syncUserAndEntityInDir` of
`downloading/user.go`.

Conventions of the embedding.

* Go `int` is the 64-bit signed integer; values are mathematical integers and a
  conversion that can wrap is written out (`toInt64`, `toInt32`).
* A `sync.Map` is a function from keys to `Option` values; `none` means the key
  is absent.  A stored nil `*xRateLimit` is `some none`.
* Every operation of the limiter runs under the mutex of the path, so an
  operation is one atomic step; the only place where the mutex is released in
  the middle of an operation is `cond.Wait()`, where `Check` is split in two.
* Goroutines are natural numbers.
-/

namespace Tmd

/-! ## Library models -/

/-- Instants of `time.Time`, counted in nanoseconds since the Unix epoch. -/
abbrev Time := Int

/-- Model of `time.Unix(sec, nsec)`. -/
def timeUnix (sec nsec : Int) : Time := sec * 1000000000 + nsec

/-- The zero `time.Time` (January 1, year 1, 00:00:00 UTC). -/
def zeroTime : Time := timeUnix (-62135596800) 0

/-- Go conversion `int64(x)` of an unsigned 64-bit value. -/
def toInt64 (n : Nat) : Int :=
  if n % 2 ^ 64 < 2 ^ 63 then (n % 2 ^ 64 : Nat) else ((n % 2 ^ 64 : Nat) : Int) - 2 ^ 64

/-- Go conversion `int32(x)` of an `int`. -/
def toInt32 (i : Int) : Int :=
  if i % 2 ^ 32 < 2 ^ 31 then i % 2 ^ 32 else i % 2 ^ 32 - 2 ^ 32

/-- Value of a non-empty string of decimal digits, most significant first. -/
def digitsValue : List Char → Nat → Option Nat
  | [], acc => some acc
  | c :: cs, acc =>
    if c.isDigit then digitsValue cs (acc * 10 + (c.toNat - 48)) else none

/-- Model of `strconv.ParseUint(s, 10, 64)`: digits only, value below `2^64`;
`none` stands for a returned error. -/
def ParseUint (s : String) : Option Nat :=
  match s.toList with
  | [] => none
  | cs =>
    match digitsValue cs 0 with
    | some n => if n < 2 ^ 64 then some n else none
    | none => none

/-- Model of `strconv.Atoi(s)` on a 64-bit platform: an optional sign followed
by digits, value within the range of `int`; `none` stands for a returned
error. -/
def Atoi (s : String) : Option Int :=
  match s.toList with
  | [] => none
  | '-' :: cs =>
    match cs, digitsValue cs 0 with
    | _ :: _, some n => if n ≤ 2 ^ 63 then some (-(n : Int)) else none
    | _, _ => none
  | '+' :: cs =>
    match cs, digitsValue cs 0 with
    | _ :: _, some n => if n < 2 ^ 63 then some (n : Int) else none
    | _, _ => none
  | cs =>
    match digitsValue cs 0 with
    | some n => if n < 2 ^ 63 then some (n : Int) else none
    | none => none

/-- Model of `strings.HasSuffix`. -/
def HasSuffix (s suffix : String) : Bool :=
  suffix.toList.isSuffixOf s.toList

/-- Store into a map. -/
def store {κ α : Type} [DecidableEq κ] (m : κ → Option α) (k : κ) (v : α) : κ → Option α :=
  fun j => if j = k then some v else m j

/-- Delete from a map. -/
def delete {κ α : Type} [DecidableEq κ] (m : κ → Option α) (k : κ) : κ → Option α :=
  fun j => if j = k then none else m j

/-! ## twitter/client.go -/

/-- The parts of a `url.URL` the limiter reads. -/
structure URL where
  Host : String
  Path : String
deriving DecidableEq

/-- A response: the URL of its request and its header; a header is a list of
key and value pairs. -/
structure Response where
  URL : URL
  Header : List (String × String)
deriving DecidableEq

/-- Model of `header.Get(key)`: the first value stored under the key, the empty
string when there is none. -/
def headerGet : List (String × String) → String → String
  | [], _ => ""
  | (k, v) :: rest, key => if k = key then v else headerGet rest key

/-- The quota record of one path. -/
structure xRateLimit where
  ResetTime : Time
  Remaining : Int
  Limit : Int
  Ready : Bool
  Url : String
deriving DecidableEq

/-- The placeholder `&xRateLimit{}`. -/
def xRateLimit.zero : xRateLimit :=
  { ResetTime := zeroTime, Remaining := 0, Limit := 0, Ready := false, Url := "" }

/-- The method `(*xRateLimit).Req` at clock reading `now`: the returned flag,
the record after the call, and the clock after the call (`time.Sleep` returns no
earlier than `ResetTime`; the earliest such instant is taken).  The decrement
is guarded by `Remaining > Limit/100`, so it cannot leave the range of `int`. -/
def xRateLimit.Req (rl : xRateLimit) (now : Time) : Bool × xRateLimit × Time :=
  if !rl.Ready then
    (false, rl, now)
  else if now > rl.ResetTime then
    (false, { rl with Ready := false }, now)
  else if rl.Remaining > Int.tdiv rl.Limit 100 then
    (true, { rl with Remaining := rl.Remaining - 1 }, now)
  else
    (false, { rl with Ready := false }, max now rl.ResetTime)

/-- The function `makeRateLimit`; `none` is the returned nil pointer.  The
field `Url` is `filepath.Join(u.Host, u.Path)`, for a clean absolute path the
concatenation; it is read by log lines only. -/
def makeRateLimit (resp : Response) : Option xRateLimit :=
  let limit := headerGet resp.Header "X-Rate-Limit-Limit"
  if limit = "" then none else
  let remaining := headerGet resp.Header "X-Rate-Limit-Remaining"
  if remaining = "" then none else
  let resetTime := headerGet resp.Header "X-Rate-Limit-Reset"
  if resetTime = "" then none else
  match ParseUint resetTime with
  | none => none
  | some resetTimeNum =>
    match Atoi remaining with
    | none => none
    | some remainingNum =>
      match Atoi limit with
      | none => none
      | some limitNum =>
        some { ResetTime := timeUnix (toInt64 resetTimeNum) 0
               Remaining := remainingNum
               Limit := limitNum
               Ready := true
               Url := resp.URL.Host ++ resp.URL.Path }

/-- The struct `rateLimiter`.  `limiters` maps a path to its (possibly nil)
record; `conds` maps a path to its condition variable, represented by the
goroutines parked in `cond.Wait()`, oldest first. -/
structure rateLimiter where
  limiters : String → Option (Option xRateLimit)
  conds : String → Option (List Nat)

/-- The method `ShouldWork`. -/
def ShouldWork (url : URL) : Bool :=
  !HasSuffix url.Host "twimg.com"

/-- How a call of `Check` leaves the mutex: through one of its four `return`s,
or parked in `cond.Wait()`. -/
inductive CheckResult
  | skipped
  | initialReq
  | inheritedReq
  | startReq
  | wait
deriving DecidableEq

/-- The goroutines parked on the condition variable of a path. -/
def rateLimiter.waiters (rl : rateLimiter) (path : String) : List Nat :=
  (rl.conds path).getD []

/-- Lines 154 to 170 of `Check`, entered with the loaded `limiter`: the loop
test, then either `cond.Wait()` (goroutine `g` is parked) or the call of `Req`
whose result is dropped, and the final `return`. -/
def rateLimiter.checkLoop (rl : rateLimiter) (now : Time) (g : Nat) (path : String)
    (limiter : Option xRateLimit) : rateLimiter × Time × CheckResult :=
  match limiter with
  | some l =>
    if !l.Ready then
      ({ rl with conds := store rl.conds path (rl.waiters path ++ [g]) }, now, CheckResult.wait)
    else
      let r := l.Req now
      ({ rl with limiters := store rl.limiters path (some r.2.1) }, r.2.2, CheckResult.startReq)
  | none => (rl, now, CheckResult.startReq)

/-- The method `Check` up to its first `return` or `cond.Wait()`, called by
goroutine `g`. -/
def rateLimiter.Check (rl : rateLimiter) (now : Time) (g : Nat) (url : URL) :
    rateLimiter × Time × CheckResult :=
  if !ShouldWork url then (rl, now, CheckResult.skipped) else
  let path := url.Path
  let rl1 : rateLimiter := { rl with conds := store rl.conds path (rl.waiters path) }
  match rl1.limiters path with
  | none =>
    ({ rl1 with limiters := store rl1.limiters path (some xRateLimit.zero) }, now,
      CheckResult.initialReq)
  | some limiter => rl1.checkLoop now g path limiter

/-- The rest of `Check` for goroutine `g` once `cond.Wait()` has returned and
the mutex is held again (lines 157 to 170). -/
def rateLimiter.CheckWake (rl : rateLimiter) (now : Time) (g : Nat) (path : String) :
    rateLimiter × Time × CheckResult :=
  match rl.limiters path with
  | none =>
    ({ rl with limiters := store rl.limiters path (some xRateLimit.zero) }, now,
      CheckResult.inheritedReq)
  | some limiter => rl.checkLoop now g path limiter

/-- The method `Update`.  The result is the limiter afterwards and the
goroutines woken by `cond.Broadcast()`; `Except.error` is a panic of one of the
two unchecked type assertions on a nil interface. -/
def rateLimiter.Update (rl : rateLimiter) (resp : Response) :
    Except String (rateLimiter × List Nat) :=
  if !ShouldWork resp.URL then Except.ok (rl, []) else
  let path := resp.URL.Path
  match rl.conds path with
  | none => Except.error "interface conversion: interface is nil, not *sync.Cond"
  | some parked =>
    match rl.limiters path with
    | none => Except.error "interface conversion: interface is nil, not *twitter.xRateLimit"
    | some none => Except.ok (rl, [])
    | some (some limiter) =>
      if limiter.Ready then Except.ok (rl, [])
      else
        Except.ok ({ limiters := store rl.limiters path (makeRateLimit resp)
                     conds := store rl.conds path [] }, parked)

/-- The method `Reset`.  The result is the limiter afterwards and the goroutine
woken by `cond.Signal()` if there is one; `k` selects which parked goroutine
the runtime wakes. -/
def rateLimiter.Reset (rl : rateLimiter) (url : URL) (k : Nat) : rateLimiter × List Nat :=
  if !ShouldWork url then (rl, []) else
  let path := url.Path
  match rl.conds path with
  | none => (rl, [])
  | some parked =>
    match rl.limiters path with
    | none => (rl, [])
    | some none => (rl, [])
    | some (some limiter) =>
      if limiter.Ready then (rl, [])
      else
        match parked[k % parked.length]? with
        | none => ({ rl with limiters := delete rl.limiters path }, [])
        | some w =>
          ({ limiters := delete rl.limiters path
             conds := store rl.conds path (parked.eraseIdx (k % parked.length)) }, [w])

/-! ## Interleavings of the hooks installed by `EnableRateLimit`

`OnBeforeRequest` calls `Check`, `OnAfterResponse` calls `Update`, the retry
hook and `OnError` call `Reset`.  A request is in flight from the return of its
`Check` until its `Update` or `Reset` has run. -/

/-- The limiter together with the goroutines around it. -/
structure Sys where
  rl : rateLimiter
  now : Time
  started : List (Nat × URL)
  runnable : List Nat
  inflight : List (Nat × CheckResult)
  panicked : Bool

/-- One atomic step: a goroutine enters `Check`, a woken goroutine resumes
`Check`, the response or the failure of a request in flight is handled, or time
passes. -/
inductive Action
  | check (g : Nat) (url : URL)
  | wake (g : Nat)
  | update (g : Nat) (header : List (String × String))
  | reset (g : Nat) (k : Nat)
  | tick (d : Nat)
deriving DecidableEq

/-- A fresh limiter (`rateLimiter{}`) at clock reading `now`. -/
def Sys.init (now : Time) : Sys :=
  { rl := { limiters := fun _ => none, conds := fun _ => none }
    now := now, started := [], runnable := [], inflight := [], panicked := false }

/-- Record how goroutine `g` left the mutex in `Check`: a returned call puts its
request in flight, a parked one does not. -/
def Sys.leave (s : Sys) (g : Nat) (out : rateLimiter × Time × CheckResult) : Sys :=
  { s with
    rl := out.1
    now := out.2.1
    inflight := if out.2.2 = CheckResult.wait then s.inflight else s.inflight ++ [(g, out.2.2)] }

/-- The step function; `none` when the action is not enabled: the process has
panicked, a goroutine identifier is reused, a goroutine that was not woken
resumes, or `Update` / `Reset` is issued for a request that is not in flight. -/
def Sys.step (s : Sys) : Action → Option Sys
  | Action.check g url =>
    if s.panicked then none
    else if (s.started.lookup g).isSome then none
    else some ({ s with started := (g, url) :: s.started }.leave g (s.rl.Check s.now g url))
  | Action.wake g =>
    if s.panicked then none
    else if g ∈ s.runnable then
      match s.started.lookup g with
      | none => none
      | some url =>
        some ({ s with runnable := s.runnable.erase g }.leave g (s.rl.CheckWake s.now g url.Path))
    else none
  | Action.update g header =>
    if s.panicked then none
    else
      match s.inflight.lookup g, s.started.lookup g with
      | some _, some url =>
        match s.rl.Update { URL := url, Header := header } with
        | Except.error _ =>
          some { s with inflight := s.inflight.filter (fun e => e.1 != g), panicked := true }
        | Except.ok (rl, woken) =>
          some { s with rl := rl, runnable := s.runnable ++ woken
                        inflight := s.inflight.filter (fun e => e.1 != g) }
      | _, _ => none
  | Action.reset g k =>
    if s.panicked then none
    else
      match s.inflight.lookup g, s.started.lookup g with
      | some _, some url =>
        let out := s.rl.Reset url k
        some { s with rl := out.1, runnable := s.runnable ++ out.2
                      inflight := s.inflight.filter (fun e => e.1 != g) }
      | _, _ => none
  | Action.tick d =>
    if s.panicked then none else some { s with now := s.now + d }

/-- Run a schedule. -/
def Sys.run (s : Sys) : List Action → Option Sys
  | [] => some s
  | a :: rest => (s.step a).bind (fun s1 => s1.run rest)

/-- A check returned through a branch in which nothing was loaded. -/
def CheckResult.isProbe : CheckResult → Bool
  | CheckResult.initialReq => true
  | CheckResult.inheritedReq => true
  | _ => false

/-- The requests in flight that hold probe duty. -/
def Sys.probers (s : Sys) : List Nat :=
  (s.inflight.filter (fun e => e.2.isProbe)).map (fun e => e.1)

/-- Successive calls of `Req` on one record, at the clock readings of the list. -/
def reqs (rl : xRateLimit) : List Time → xRateLimit
  | [] => rl
  | now :: rest => reqs (rl.Req now).2.1 rest

/-- The schedule in which the goroutines of the list enter `Check` on `url` one
after the other. -/
def checksOf (url : URL) (gs : List Nat) : List Action :=
  gs.map (fun g => Action.check g url)

/-- The action is neither an `Update` nor a `Reset`. -/
def Action.quiet : Action → Bool
  | Action.update _ _ => false
  | Action.reset _ _ => false
  | _ => true

/-- Goroutine `h` is blocked in `Check` on `path`: it has entered `Check`, it
sits in the wait list of the condition variable, it has not been notified and
its call has not returned. -/
def Sys.parked (s : Sys) (path : String) (h : Nat) : Prop :=
  h ∈ s.rl.waiters path ∧ h ∉ s.runnable ∧ (∀ r, (h, r) ∉ s.inflight) ∧
    s.started.lookup h ≠ none

/-- Goroutine `h` has not called `Check` yet. -/
def Sys.fresh (s : Sys) (h : Nat) : Prop :=
  s.started.lookup h = none ∧ h ∉ s.runnable ∧ ∀ r, (h, r) ∉ s.inflight

/-- A rate limited URL used in the examples. -/
def apiUrl : URL := { Host := "api.x.com", Path := "/p" }

/-- A header carrying the three quota fields. -/
def quota (limit remaining reset : String) : List (String × String) :=
  [("X-Rate-Limit-Limit", limit), ("X-Rate-Limit-Remaining", remaining),
   ("X-Rate-Limit-Reset", reset)]

/-- A limiter whose only path holds the given record and has the given
goroutines parked. -/
def limiterWith (path : String) (l : Option xRateLimit) (parked : List Nat) : rateLimiter :=
  { limiters := store (fun _ => none) path l
    conds := store (fun _ => none) path parked }

/-- A ready record with limit 300 and one request remaining, valid until epoch
second 1000. -/
def lowQuota : xRateLimit :=
  { ResetTime := timeUnix 1000 0, Remaining := 1, Limit := 300, Ready := true,
    Url := "api.x.com/p" }

/-- A ready record with a negative limit and nothing remaining. -/
def negativeLimit : xRateLimit :=
  { ResetTime := timeUnix 1000 0, Remaining := 0, Limit := -100, Ready := true,
    Url := "api.x.com/p" }

/-- A schedule after which the entry of the path is gone while request 3 is
still in flight: request 1 probes and its response stores a quota of 2 out of
100, requests 2 and 3 pass `Check` (the second one exhausts the quota and
leaves the record not ready), then request 2 fails. -/
def lostEntrySchedule : List Action :=
  [Action.check 1 apiUrl, Action.update 1 (quota "100" "2" "1000"), Action.check 2 apiUrl,
   Action.check 3 apiUrl, Action.reset 2 0]

/-- The schedule `lostEntrySchedule` followed by the response of request 3. -/
def updateAfterResetSchedule : List Action :=
  lostEntrySchedule ++ [Action.update 3 (quota "100" "2" "1000")]

/-- The schedule `lostEntrySchedule` followed by a new first caller 4, the
failure of request 3 and another new first caller 5. -/
def twoProbersSchedule : List Action :=
  lostEntrySchedule ++ [Action.check 4 apiUrl, Action.reset 3 0, Action.check 5 apiUrl]

/-! ## downloading/user.go and downloading/list.go

The database, the file system and the methods of `UserEntity` are
collaborators whose code is not part of the sync worker.  Their results while
one account is processed are given by a `Collab` record, and every call that
reaches them is recorded as an `Event`. -/

/-- The fields of `twitter.User` read by the sync code. -/
structure User where
  Id : Nat
  Name : String
  ScreenName : String
  FriendsCount : Int
  IsProtected : Bool
deriving DecidableEq

/-- The record `database.UserEntity` behind a `UserEntity`. -/
structure UserEntity where
  Uid : Nat
  Title : String
  ParentDir : String
deriving DecidableEq

/-- The record `database.UserLink`. -/
structure UserLink where
  Name : String
  ParentLstEntityId : Int
  Uid : Nat
deriving DecidableEq

/-- Calls that reach a collaborator, and the log lines of the worker. -/
inductive Event
  | GetUserById (uid : Nat)
  | CreateUser (usrdb : User)
  | UpdateUser (usrdb : User)
  | LocateUserEntityInDir (uid : Nat) (dir : String)
  | Rename (entity : UserEntity) (title : String)
  | Mkdir (path : String)
  | Create (entity : UserEntity)
  | syncFailed (uid : Nat)
  | entityChan (entity : UserEntity)
  | GetUserLinks (uid : Nat)
  | getLinksFailed (uid : Nat)
  | updateUserLink (linkd : UserLink) (upath : String)
  | syncLinkFailed (uid : Nat)
  | skipped (uid : Nat)
  | linkPath (curlink : UserLink)
  | CreateLink (upath linkpath : String)
  | CreateUserLink (curlink : UserLink)
  | createLinkFailed (uid : Nat)
deriving DecidableEq

/-- Results of the collaborators while one account is processed.  An
`Except.error` is a returned non-nil error. -/
structure Collab where
  GetUserById : Except String Bool
  CreateUser : Except String Unit
  UpdateUser : Except String Unit
  LocateUserEntityInDir : Except String (Option UserEntity)
  Rename : Except String Unit
  Path : Except String String
  Create : Except String Unit
  GetUserLinks : Except String (List UserLink)
  updateUserLink : UserLink → Except String Unit
  curlinkPath : Except String String
  CreateLink : Except String Unit
  CreateUserLink : Except String Unit

/-- Pure collaborators and the platform: `title u` is
`string(utils.WinFileName([]byte(u.Title())))`, `name e` is `e.Name()`, and
`windows` is `runtime.GOOS == "windows"`. -/
structure Env where
  title : User → String
  name : UserEntity → String
  windows : Bool

/-- The function `syncUser`: the calls made and the returned error. -/
def syncUser (o : Collab) (user : User) : List Event × Except String Unit :=
  match o.GetUserById with
  | Except.error e => ([Event.GetUserById user.Id], Except.error e)
  | Except.ok found =>
    if !found then
      ([Event.GetUserById user.Id, Event.CreateUser user], o.CreateUser)
    else
      ([Event.GetUserById user.Id, Event.UpdateUser user], o.UpdateUser)

/-- The function `syncUserAndEntityInDir`: the calls made and the returned
entity or error.  The worker calls it as `syncUserAndEntity` and keeps the
entity.  A successful `Rename` leaves the entity with the new title. -/
def syncUserAndEntityInDir (env : Env) (o : Collab) (user : User) (dir : String) :
    List Event × Except String UserEntity :=
  match syncUser o user with
  | (ev, Except.error e) => (ev, Except.error e)
  | (ev, Except.ok _) =>
    let expectedTitle := env.title user
    let ev1 := ev ++ [Event.LocateUserEntityInDir user.Id dir]
    match o.LocateUserEntityInDir with
    | Except.error e => (ev1, Except.error e)
    | Except.ok none =>
      let entity : UserEntity := { Uid := user.Id, Title := expectedTitle, ParentDir := dir }
      match o.Create with
      | Except.error e => (ev1 ++ [Event.Create entity], Except.error e)
      | Except.ok _ => (ev1 ++ [Event.Create entity], Except.ok entity)
    | Except.ok (some userdb) =>
      if userdb.Title ≠ expectedTitle then
        match o.Rename with
        | Except.error e => (ev1 ++ [Event.Rename userdb expectedTitle], Except.error e)
        | Except.ok _ =>
          (ev1 ++ [Event.Rename userdb expectedTitle],
            Except.ok { userdb with Title := expectedTitle })
      else
        match o.Path with
        | Except.error e => (ev1, Except.error e)
        | Except.ok path => (ev1 ++ [Event.Mkdir path], Except.ok userdb)

/-- The package-level maps `syncedUsers` (account id to entity) and
`syncedListUsers` (list id to the set of account ids of its inner map). -/
structure Memo where
  syncedUsers : Nat → Option UserEntity
  syncedListUsers : Int → Option (Nat → Bool)

/-- State of one sync worker: the shared maps, the calls made so far, and
whether `abort` has been called. -/
structure Worker where
  memo : Memo
  trace : List Event
  aborted : Bool

/-- The two statements `syncedListUsers.LoadOrStore(lid, &sync.Map{})` and
`syncedList.Store(uid, struct{}{})`. -/
def Memo.markListUser (m : Memo) (lid : Int) (uid : Nat) : Memo :=
  { m with
    syncedListUsers := store m.syncedListUsers lid
      (fun j => if j = uid then true else (m.syncedListUsers lid).getD (fun _ => false) j) }

/-- Whether the inner map of list `lid` holds `uid`. -/
def Memo.listHas (m : Memo) (lid : Int) (uid : Nat) : Bool :=
  (m.syncedListUsers lid).getD (fun _ => false) uid

/-- The value of `pathEntity.Path()` with its error dropped. -/
def Collab.upath (o : Collab) : String :=
  match o.Path with
  | Except.ok path => path
  | Except.error _ => ""

/-- The loop over `linkds` (lines 102 to 109).  The flag of the result is true
when `*listEntityId` dereferenced a nil pointer; the loop stops there. -/
def linkLoop (o : Collab) (listEntityId : Option Int) (u : User) (upath : String) :
    Worker → List UserLink → Worker × Bool
  | w, [] => (w, false)
  | w, linkd :: rest =>
    let w1 : Worker :=
      match o.updateUserLink linkd with
      | Except.error _ =>
        { w with trace := w.trace ++ [Event.updateUserLink linkd upath, Event.syncLinkFailed u.Id] }
      | Except.ok _ => { w with trace := w.trace ++ [Event.updateUserLink linkd upath] }
    match listEntityId with
    | none => (w1, true)
    | some lid => linkLoop o listEntityId u upath { w1 with memo := w1.memo.markListUser lid u.Id } rest

/-- Lines 116 to 146: the symlink of the current list for account `u`.  When
the inner map already holds the account, both `LoadOrStore` calls load and the
maps stay as they are. -/
def linkCurrent (env : Env) (o : Collab) (listEntityId : Option Int) (u : User)
    (pathEntity : UserEntity) (w : Worker) : Worker :=
  match listEntityId with
  | none => w
  | some lid =>
    if w.memo.listHas lid u.Id then w
    else
      let w1 : Worker := { w with memo := w.memo.markListUser lid u.Id }
      let upath := o.upath
      let linkname := if env.windows then env.name pathEntity ++ ".lnk" else env.name pathEntity
      let curlink : UserLink :=
        { Name := linkname, ParentLstEntityId := toInt32 lid, Uid := u.Id }
      match o.curlinkPath with
      | Except.error _ =>
        { w1 with trace := w1.trace ++ [Event.linkPath curlink, Event.createLinkFailed u.Id] }
      | Except.ok linkpath =>
        match o.CreateLink with
        | Except.error _ =>
          { w1 with trace := w1.trace ++
              [Event.linkPath curlink, Event.CreateLink upath linkpath,
               Event.createLinkFailed u.Id] }
        | Except.ok _ =>
          match o.CreateUserLink with
          | Except.error _ =>
            { w1 with trace := w1.trace ++
                [Event.linkPath curlink, Event.CreateLink upath linkpath,
                 Event.CreateUserLink curlink, Event.createLinkFailed u.Id] }
          | Except.ok _ =>
            { w1 with trace := w1.trace ++
                [Event.linkPath curlink, Event.CreateLink upath linkpath,
                 Event.CreateUserLink curlink] }

/-- The body of the loop of `userUpdater` for one account (lines 81 to 147).
The flag of the result is true when the body panicked. -/
def syncBody (env : Env) (dir : String) (listEntityId : Option Int) (o : Collab)
    (w : Worker) (u : User) : Worker × Bool :=
  match w.memo.syncedUsers u.Id with
  | none =>
    match syncUserAndEntityInDir env o u dir with
    | (ev, Except.error _) =>
      ({ w with trace := w.trace ++ ev ++ [Event.syncFailed u.Id] }, false)
    | (ev, Except.ok pathEntity) =>
      let w1 : Worker :=
        { w with
          memo := { w.memo with syncedUsers := store w.memo.syncedUsers u.Id pathEntity }
          trace := w.trace ++ ev ++ [Event.entityChan pathEntity, Event.GetUserLinks u.Id] }
      match o.GetUserLinks with
      | Except.error _ =>
        ({ w1 with trace := w1.trace ++ [Event.getLinksFailed u.Id] }, false)
      | Except.ok linkds =>
        match linkLoop o listEntityId u o.upath w1 linkds with
        | (w2, true) => (w2, true)
        | (w2, false) => (linkCurrent env o listEntityId u pathEntity w2, false)
  | some pe =>
    (linkCurrent env o listEntityId u pe { w with trace := w.trace ++ [Event.skipped u.Id] },
      false)

/-- The closure `userUpdater` run by a single worker over the accounts of
`userChan`; `oracle i` gives the collaborator results for the account at
position `i` of the feed.  A panic of the body is recovered by `panicHandler`,
which calls `abort` and ends the worker. -/
def userUpdaterFrom (env : Env) (dir : String) (listEntityId : Option Int)
    (oracle : Nat → Collab) : Nat → Worker → List User → Worker
  | _, w, [] => w
  | i, w, u :: rest =>
    if w.aborted then w
    else
      match syncBody env dir listEntityId (oracle i) w u with
      | (w1, true) => { w1 with aborted := true }
      | (w1, false) => userUpdaterFrom env dir listEntityId oracle (i + 1) w1 rest

/-- The worker started on the maps `memo`. -/
def userUpdater (env : Env) (dir : String) (listEntityId : Option Int)
    (oracle : Nat → Collab) (memo : Memo) (users : List User) : Worker :=
  userUpdaterFrom env dir listEntityId oracle 0
    { memo := memo, trace := [], aborted := false } users

/-- The event is a database upsert (`CreateUser` or `UpdateUser`) of account
`uid`. -/
def Event.isUpsert (uid : Nat) : Event → Bool
  | Event.CreateUser usrdb => usrdb.Id = uid
  | Event.UpdateUser usrdb => usrdb.Id = uid
  | _ => false

/-- The event is the entity lookup for account `uid`. -/
def Event.isLocate (uid : Nat) : Event → Bool
  | Event.LocateUserEntityInDir id _ => id = uid
  | _ => false

/-- The event is the creation of the entity of account `uid`. -/
def Event.isCreate (uid : Nat) : Event → Bool
  | Event.Create entity => entity.Uid = uid
  | _ => false

/-- The event is the log line of a failed sync of account `uid`. -/
def Event.isSyncFailed (uid : Nat) : Event → Bool
  | Event.syncFailed id => id = uid
  | _ => false

/-- The event is one of those counted by the four predicates above. -/
def Event.isSyncKind : Event → Bool
  | Event.CreateUser _ => true
  | Event.UpdateUser _ => true
  | Event.LocateUserEntityInDir _ _ => true
  | Event.Create _ => true
  | Event.syncFailed _ => true
  | _ => false

/-- The event is the creation of a symlink, on disk or in the database. -/
def Event.isLinkCreation : Event → Bool
  | Event.CreateLink _ _ => true
  | Event.CreateUserLink _ => true
  | _ => false

/-- Maps in which nothing is recorded. -/
def Memo.empty : Memo :=
  { syncedUsers := fun _ => none, syncedListUsers := fun _ => none }

/-- Collaborators that all succeed: the account and its entity are new and
`linkds` are the recorded links that target the account. -/
def allGood (linkds : List UserLink) : Collab :=
  { GetUserById := Except.ok false
    CreateUser := Except.ok ()
    UpdateUser := Except.ok ()
    LocateUserEntityInDir := Except.ok none
    Rename := Except.ok ()
    Path := Except.ok "/root/alice"
    Create := Except.ok ()
    GetUserLinks := Except.ok linkds
    updateUserLink := fun _ => Except.ok ()
    curlinkPath := Except.ok "/lists/one/alice"
    CreateLink := Except.ok ()
    CreateUserLink := Except.ok () }

/-- Collaborators whose entity lookup fails after a successful upsert. -/
def locateFails : Collab :=
  { allGood [] with LocateUserEntityInDir := Except.error "database is locked" }

/-- An account used in the examples. -/
def alice : User :=
  { Id := 7, Name := "Alice", ScreenName := "alice", FriendsCount := 3, IsProtected := false }

/-- An environment used in the examples. -/
def plainEnv : Env :=
  { title := fun u => u.Name, name := fun e => e.Title, windows := false }

/-- A recorded link to `alice` that belongs to list 2. -/
def linkInListTwo : UserLink := { Name := "Alice", ParentLstEntityId := 2, Uid := 7 }

/-- The bound of the dedup argument: the events selected by `p` are at most the
failed syncs of `A`, plus one once `A` is recorded in `syncedUsers`. -/
def dedupInv (A : Nat) (p : Event → Bool) (w : Worker) : Prop :=
  w.trace.countP p ≤ w.trace.countP (Event.isSyncFailed A) +
    (if (w.memo.syncedUsers A).isSome then 1 else 0)

/-- The record stored for `path` once `Update` has handled `resp`; `none` when
`Update` panicked or the path has no entry. -/
def storedAfterUpdate (rl : rateLimiter) (resp : Response) (path : String) :
    Option (Option xRateLimit) :=
  match rl.Update resp with
  | Except.ok out => out.1.limiters path
  | Except.error _ => none

/-- Whether `Update` panics on `resp`. -/
def rateLimiter.UpdatePanics (rl : rateLimiter) (resp : Response) : Bool :=
  match rl.Update resp with
  | Except.ok _ => false
  | Except.error _ => true

/-- A response whose reset header is `2^63`, the first value that `int64`
cannot hold. -/
def farFutureResponse : Response :=
  { URL := apiUrl, Header := quota "300" "5" "9223372036854775808" }

/-! ## Basic facts about the library models -/

@[simp]
theorem store_same {κ α : Type} [DecidableEq κ] (m : κ → Option α) (k : κ) (v : α) :
    store m k v k = some v := by simp [store]

@[simp]
theorem delete_same {κ α : Type} [DecidableEq κ] (m : κ → Option α) (k : κ) :
    delete m k k = none := by simp [delete]

theorem store_store {κ α : Type} [DecidableEq κ] (m : κ → Option α) (k : κ) (a b : α) :
    store (store m k a) k b = store m k b := by
  funext j
  by_cases h : j = k <;> simp [store, h]

theorem lookup_cons_ne {α : Type} (h g : Nat) (v : α) (l : List (Nat × α)) (hne : h ≠ g) :
    List.lookup h ((g, v) :: l) = List.lookup h l := by
  rw [List.lookup_cons]
  have : (h == g) = false := by simpa using hne
  simp [this]

/-- Go division by 100 of a limit above -100 is not negative. -/
theorem tdiv_hundred_nonneg (a : Int) (h : -100 < a) : 0 ≤ Int.tdiv a 100 := by
  rcases lt_or_le a 0 with hneg | hpos
  · have h1 : Int.tdiv (-a) 100 = 0 := Int.tdiv_eq_zero_of_lt (by omega) (by omega)
    have h2 : Int.tdiv (-a) 100 = - Int.tdiv a 100 := Int.neg_tdiv a 100
    omega
  · exact Int.tdiv_nonneg hpos (by norm_num)

theorem toInt64_small (t : Nat) (h : t < 2 ^ 63) : toInt64 t = t := by
  unfold toInt64
  split_ifs <;> omega

theorem toInt64_large (t : Nat) (h1 : 2 ^ 63 ≤ t) (h2 : t < 2 ^ 64) :
    toInt64 t = (t : Int) - 2 ^ 64 := by
  unfold toInt64
  split_ifs <;> omega

theorem Atoi_empty : Atoi "" = none := by decide

theorem ParseUint_empty : ParseUint "" = none := by decide

theorem ParseUint_lt (s : String) (t : Nat) (h : ParseUint s = some t) : t < 2 ^ 64 := by
  unfold ParseUint at h
  split at h
  · cases h
  · split at h
    · split_ifs at h with hlt
      cases h
      exact hlt
    · cases h

/-! ## Facts about `Req` and `makeRateLimit` -/

theorem Req_Limit (rl : xRateLimit) (now : Time) : (rl.Req now).2.1.Limit = rl.Limit := by
  unfold xRateLimit.Req
  split_ifs <;> rfl

theorem Req_Remaining_nonneg (rl : xRateLimit) (now : Time) (h0 : 0 ≤ rl.Remaining)
    (hl : -100 < rl.Limit) : 0 ≤ (rl.Req now).2.1.Remaining := by
  have := tdiv_hundred_nonneg rl.Limit hl
  unfold xRateLimit.Req
  split_ifs with h1 h2 h3 <;> simp <;> omega

theorem reqs_Remaining_nonneg (nows : List Time) (rl : xRateLimit) (h0 : 0 ≤ rl.Remaining)
    (hl : -100 < rl.Limit) : 0 ≤ (reqs rl nows).Remaining := by
  induction nows generalizing rl with
  | nil => exact h0
  | cons now rest ih =>
    exact ih _ (Req_Remaining_nonneg rl now h0 hl) (by rw [Req_Limit]; exact hl)

theorem makeRateLimit_none (resp : Response)
    (h : Atoi (headerGet resp.Header "X-Rate-Limit-Limit") = none ∨
         Atoi (headerGet resp.Header "X-Rate-Limit-Remaining") = none ∨
         ParseUint (headerGet resp.Header "X-Rate-Limit-Reset") = none) :
    makeRateLimit resp = none := by
  unfold makeRateLimit
  simp only []
  split_ifs
  · rfl
  · rfl
  · rfl
  · rcases h with h | h | h <;> (split <;> try rfl) <;> (split <;> try rfl) <;>
      (split <;> try rfl) <;> simp_all

theorem makeRateLimit_some (resp : Response) (a b : Int) (t : Nat)
    (ha : Atoi (headerGet resp.Header "X-Rate-Limit-Limit") = some a)
    (hb : Atoi (headerGet resp.Header "X-Rate-Limit-Remaining") = some b)
    (ht : ParseUint (headerGet resp.Header "X-Rate-Limit-Reset") = some t) :
    makeRateLimit resp =
      some { ResetTime := timeUnix (toInt64 t) 0, Remaining := b, Limit := a, Ready := true
             Url := resp.URL.Host ++ resp.URL.Path } := by
  have h1 : headerGet resp.Header "X-Rate-Limit-Limit" ≠ "" := by
    intro h; rw [h, Atoi_empty] at ha; cases ha
  have h2 : headerGet resp.Header "X-Rate-Limit-Remaining" ≠ "" := by
    intro h; rw [h, Atoi_empty] at hb; cases hb
  have h3 : headerGet resp.Header "X-Rate-Limit-Reset" ≠ "" := by
    intro h; rw [h, ParseUint_empty] at ht; cases ht
  simp [makeRateLimit, h1, h2, h3, ha, hb, ht]

/-! ## Facts about `Update`, `Reset` and the resumed `Check` -/

theorem Update_not_ready (rl : rateLimiter) (resp : Response) (parked : List Nat)
    (l : xRateLimit) (hw : ShouldWork resp.URL = true)
    (hc : rl.conds resp.URL.Path = some parked)
    (hl : rl.limiters resp.URL.Path = some (some l)) (hr : l.Ready = false) :
    rl.Update resp = Except.ok
      ({ limiters := store rl.limiters resp.URL.Path (makeRateLimit resp)
         conds := store rl.conds resp.URL.Path [] }, parked) := by
  simp [rateLimiter.Update, hw, hc, hl, hr]

theorem Update_settled (rl : rateLimiter) (resp : Response) (parked : List Nat)
    (hw : ShouldWork resp.URL = true) (hc : rl.conds resp.URL.Path = some parked)
    (h : rl.limiters resp.URL.Path = some none ∨
        ∃ l, rl.limiters resp.URL.Path = some (some l) ∧ l.Ready = true) :
    rl.Update resp = Except.ok (rl, []) := by
  rcases h with h | ⟨l, hl, hr⟩
  · simp [rateLimiter.Update, hw, hc, h]
  · simp [rateLimiter.Update, hw, hc, hl, hr]

theorem waiters_store (conds : String → Option (List Nat)) (lims) (path p : String) (ws : List Nat) :
    rateLimiter.waiters { limiters := lims, conds := store conds path ws } p =
      if p = path then ws else rateLimiter.waiters { limiters := lims, conds := conds } p := by
  by_cases hp : p = path <;> simp [rateLimiter.waiters, store, hp]

theorem checkLoop_waiters_mono (rl : rateLimiter) (now : Time) (g : Nat) (path : String)
    (limiter : Option xRateLimit) (p : String) (h : Nat) (hm : h ∈ rl.waiters p) :
    h ∈ (rl.checkLoop now g path limiter).1.waiters p := by
  unfold rateLimiter.checkLoop
  cases limiter with
  | none => exact hm
  | some l =>
    by_cases hr : l.Ready = true
    · simpa [hr, rateLimiter.waiters] using hm
    · by_cases hp : p = path
      · subst hp
        simp [hr, rateLimiter.waiters, store] at hm ⊢
        exact Or.inl hm
      · simpa [hr, rateLimiter.waiters, store, hp] using hm

theorem Check_waiters_mono (rl : rateLimiter) (now : Time) (g : Nat) (url : URL)
    (p : String) (h : Nat) (hm : h ∈ rl.waiters p) :
    h ∈ (rl.Check now g url).1.waiters p := by
  unfold rateLimiter.Check
  by_cases hw : ShouldWork url = true
  · have h1 : h ∈ rateLimiter.waiters
        { rl with conds := store rl.conds url.Path (rl.waiters url.Path) } p := by
      by_cases hp : p = url.Path
      · subst hp; simpa [rateLimiter.waiters, store] using hm
      · simpa [rateLimiter.waiters, store, hp] using hm
    simp only [hw, Bool.not_true, Bool.false_eq_true, if_false]
    cases hl : rl.limiters url.Path with
    | none => simpa [hl, rateLimiter.waiters] using h1
    | some limiter =>
      simp only [hl]
      exact checkLoop_waiters_mono _ now g url.Path limiter p h h1
  · simpa [hw] using hm

theorem CheckWake_waiters_mono (rl : rateLimiter) (now : Time) (g : Nat) (path : String)
    (p : String) (h : Nat) (hm : h ∈ rl.waiters p) :
    h ∈ (rl.CheckWake now g path).1.waiters p := by
  unfold rateLimiter.CheckWake
  cases hl : rl.limiters path with
  | none => simpa [rateLimiter.waiters] using hm
  | some limiter => exact checkLoop_waiters_mono rl now g path limiter p h hm

theorem leave_inflight_mem (s : Sys) (g : Nat) (out : rateLimiter × Time × CheckResult)
    (h : Nat) (r : CheckResult) (hm : (h, r) ∈ (s.leave g out).inflight) :
    (h, r) ∈ s.inflight ∨ h = g := by
  unfold Sys.leave at hm
  by_cases hw : out.2.2 = CheckResult.wait
  · simp [hw] at hm; exact Or.inl hm
  · simp [hw] at hm
    rcases hm with hm | hm
    · exact Or.inl hm
    · exact Or.inr hm.1

theorem parked_step (s s2 : Sys) (a : Action) (path : String) (h : Nat)
    (hq : a.quiet = true) (hs : s.step a = some s2) (hp : s.parked path h) :
    s2.parked path h := by
  obtain ⟨hw, hr, hi, hst⟩ := hp
  cases a with
  | update g hd => simp [Action.quiet] at hq
  | reset g k => simp [Action.quiet] at hq
  | tick d =>
    simp only [Sys.step] at hs
    split_ifs at hs
    cases hs
    exact ⟨hw, hr, hi, hst⟩
  | check g url =>
    simp only [Sys.step] at hs
    split_ifs at hs with h1 h2
    cases hs
    have hne : h ≠ g := by
      rintro rfl
      apply hst
      cases hlk : List.lookup h s.started with
      | none => rfl
      | some v => simp [hlk] at h2
    refine ⟨?_, hr, ?_, ?_⟩
    · exact Check_waiters_mono _ _ _ _ _ _ hw
    · intro r hm
      rcases leave_inflight_mem _ _ _ _ _ hm with hm | hm
      · exact hi r hm
      · exact hne hm
    · show List.lookup h ((g, url) :: s.started) ≠ none
      rw [List.lookup_cons]
      have : (h == g) = false := by simpa using hne
      simpa [this] using hst
  | wake g =>
    simp only [Sys.step] at hs
    split_ifs at hs with h1 h2
    cases hlk : List.lookup g s.started with
    | none => simp [hlk] at hs
    | some url =>
      simp only [hlk] at hs
      cases hs
      have hne : h ≠ g := by
        rintro rfl
        exact hr h2
      refine ⟨?_, ?_, ?_, hst⟩
      · exact CheckWake_waiters_mono _ _ _ _ _ _ hw
      · show h ∉ s.runnable.erase g
        intro hm
        exact hr (List.mem_of_mem_erase hm)
      · intro r hm
        rcases leave_inflight_mem _ _ _ _ _ hm with hm | hm
        · exact hi r hm
        · exact hne hm

theorem parked_run (acts : List Action) (s s2 : Sys) (path : String) (h : Nat)
    (hq : ∀ a ∈ acts, a.quiet = true) (hs : s.run acts = some s2) (hp : s.parked path h) :
    s2.parked path h := by
  induction acts generalizing s with
  | nil =>
    simp [Sys.run] at hs
    subst hs
    exact hp
  | cons a rest ih =>
    simp only [Sys.run] at hs
    cases h1 : s.step a with
    | none => simp [h1] at hs
    | some s1 =>
      simp only [h1, Option.bind_some] at hs
      exact ih s1 (fun b hb => hq b (List.mem_cons_of_mem _ hb)) hs
        (parked_step s s1 a path h (hq a (List.mem_cons_self _ _)) h1 hp)

theorem step_check_absent (s : Sys) (g : Nat) (url : URL) (hp : s.panicked = false)
    (hf : s.started.lookup g = none) (hw : ShouldWork url = true)
    (hnone : s.rl.limiters url.Path = none) :
    ∃ s1, s.step (Action.check g url) = some s1 ∧
      s1.rl.limiters url.Path = some (some xRateLimit.zero) ∧
      s1.rl.waiters url.Path = s.rl.waiters url.Path ∧
      s1.inflight = s.inflight ++ [(g, CheckResult.initialReq)] ∧
      s1.runnable = s.runnable ∧ s1.now = s.now ∧ s1.panicked = false ∧
      s1.started = (g, url) :: s.started := by
  have hstep : s.step (Action.check g url) = some
      { s with
        started := (g, url) :: s.started
        rl := { limiters := store s.rl.limiters url.Path (some xRateLimit.zero)
                conds := store s.rl.conds url.Path (s.rl.waiters url.Path) }
        inflight := s.inflight ++ [(g, CheckResult.initialReq)] } := by
    simp [Sys.step, hp, hf, Sys.leave, rateLimiter.Check, hw, hnone]
  refine ⟨_, hstep, ?_, ?_, rfl, rfl, rfl, hp, rfl⟩
  · simp
  · simp [rateLimiter.waiters, store]

theorem step_check_not_ready (s : Sys) (g : Nat) (url : URL) (l : xRateLimit)
    (hp : s.panicked = false) (hf : s.started.lookup g = none) (hw : ShouldWork url = true)
    (hl : s.rl.limiters url.Path = some (some l)) (hr : l.Ready = false) :
    ∃ s1, s.step (Action.check g url) = some s1 ∧
      s1.rl.limiters url.Path = some (some l) ∧
      s1.rl.waiters url.Path = s.rl.waiters url.Path ++ [g] ∧
      s1.inflight = s.inflight ∧
      s1.runnable = s.runnable ∧ s1.now = s.now ∧ s1.panicked = false ∧
      s1.started = (g, url) :: s.started := by
  have hstep : s.step (Action.check g url) = some
      { s with
        started := (g, url) :: s.started
        rl := { limiters := s.rl.limiters
                conds := store s.rl.conds url.Path (s.rl.waiters url.Path ++ [g]) } } := by
    simp [Sys.step, hp, hf, Sys.leave, rateLimiter.Check, hw, hl, rateLimiter.checkLoop, hr,
      rateLimiter.waiters, store_store]
  refine ⟨_, hstep, hl, ?_, rfl, rfl, rfl, hp, rfl⟩
  simp [rateLimiter.waiters, store]

theorem run_checks_not_ready (gs : List Nat) (s : Sys) (url : URL) (l : xRateLimit)
    (hp : s.panicked = false) (hw : ShouldWork url = true)
    (hl : s.rl.limiters url.Path = some (some l)) (hr : l.Ready = false)
    (hnd : gs.Nodup) (hf : ∀ h ∈ gs, s.started.lookup h = none) :
    ∃ s2, s.run (checksOf url gs) = some s2 ∧
      s2.rl.limiters url.Path = some (some l) ∧
      s2.rl.waiters url.Path = s.rl.waiters url.Path ++ gs ∧
      s2.inflight = s.inflight ∧ s2.runnable = s.runnable ∧ s2.now = s.now ∧
      s2.panicked = false ∧
      ∀ h, (s.started.lookup h ≠ none ∨ h ∈ gs) → s2.started.lookup h ≠ none := by
  induction gs generalizing s with
  | nil =>
    exact ⟨s, rfl, hl, by simp, rfl, rfl, rfl, hp, fun h hh => by simpa using hh⟩
  | cons g rest ih =>
    obtain ⟨s1, hstep, a1, a2, a3, a4, a5, a6, a7⟩ :=
      step_check_not_ready s g url l hp (hf g (List.mem_cons_self _ _)) hw hl hr
    have hnd2 := List.nodup_cons.mp hnd
    have hf1 : ∀ h ∈ rest, s1.started.lookup h = none := by
      intro h hh
      have hne : h ≠ g := fun e => hnd2.1 (e ▸ hh)
      rw [a7, lookup_cons_ne h g url _ hne]
      exact hf h (List.mem_cons_of_mem _ hh)
    obtain ⟨s2, h1, h2, h3, h4, h5, h6, h7, h8⟩ := ih s1 a6 a1 hnd2.2 hf1
    refine ⟨s2, ?_, h2, ?_, h4.trans a3, h5.trans a4, h6.trans a5, h7, ?_⟩
    · simp only [checksOf, List.map_cons, Sys.run, hstep, Option.bind_some]
      exact h1
    · rw [h3, a2]
      simp
    · intro h hh
      apply h8
      by_cases hg : h = g
      · subst hg
        left
        rw [a7]
        simp [List.lookup_cons]
      · rcases hh with hh | hh
        · left
          rw [a7, lookup_cons_ne h g url _ hg]
          exact hh
        · right
          rcases List.mem_cons.mp hh with e | e
          · exact absurd e hg
          · exact e

theorem zero_not_ready : xRateLimit.zero.Ready = false := rfl

/-! ## Facts about the sync worker -/

theorem countP_zero_of_not_syncKind (p : Event → Bool) (hp : ∀ e, p e = true → e.isSyncKind = true)
    (evs : List Event) (h : ∀ e ∈ evs, e.isSyncKind = false) : evs.countP p = 0 := by
  rw [List.countP_eq_zero]
  intro e he hpe
  have := hp e hpe
  rw [h e he] at this
  cases this

theorem isUpsert_syncKind (A : Nat) (e : Event) (h : Event.isUpsert A e = true) :
    e.isSyncKind = true := by
  cases e <;> simp_all [Event.isUpsert, Event.isSyncKind]

theorem isLocate_syncKind (A : Nat) (e : Event) (h : Event.isLocate A e = true) :
    e.isSyncKind = true := by
  cases e <;> simp_all [Event.isLocate, Event.isSyncKind]

theorem isCreate_syncKind (A : Nat) (e : Event) (h : Event.isCreate A e = true) :
    e.isSyncKind = true := by
  cases e <;> simp_all [Event.isCreate, Event.isSyncKind]

theorem isSyncFailed_syncKind (A : Nat) (e : Event) (h : Event.isSyncFailed A e = true) :
    e.isSyncKind = true := by
  cases e <;> simp_all [Event.isSyncFailed, Event.isSyncKind]

/-- The loop over the links adds only link events and leaves `syncedUsers` alone. -/
theorem linkLoop_trace (o : Collab) (lid : Option Int) (u : User) (upath : String)
    (links : List UserLink) (w : Worker) :
    ∃ evs, (linkLoop o lid u upath w links).1.trace = w.trace ++ evs ∧
      (∀ e ∈ evs, e.isSyncKind = false) ∧
      (linkLoop o lid u upath w links).1.memo.syncedUsers = w.memo.syncedUsers := by
  induction links generalizing w with
  | nil => exact ⟨[], by simp [linkLoop], by simp, rfl⟩
  | cons linkd rest ih =>
    cases hu : o.updateUserLink linkd with
    | error e =>
      cases lid with
      | none =>
        exact ⟨[Event.updateUserLink linkd upath, Event.syncLinkFailed u.Id],
          by simp [linkLoop, hu], by simp [Event.isSyncKind], by simp [linkLoop, hu]⟩
      | some l =>
        obtain ⟨evs, h1, h2, h3⟩ := ih
          { memo := Memo.markListUser w.memo l u.Id
            trace := w.trace ++ [Event.updateUserLink linkd upath, Event.syncLinkFailed u.Id]
            aborted := w.aborted }
        refine ⟨[Event.updateUserLink linkd upath, Event.syncLinkFailed u.Id] ++ evs, ?_, ?_, ?_⟩
        · simp only [linkLoop, hu]
          rw [h1]
          simp
        · intro e he
          rcases List.mem_append.mp he with he | he
          · simp at he
            rcases he with rfl | rfl <;> rfl
          · exact h2 e he
        · simp only [linkLoop, hu]
          rw [h3]
          rfl
    | ok v =>
      cases lid with
      | none =>
        exact ⟨[Event.updateUserLink linkd upath],
          by simp [linkLoop, hu], by simp [Event.isSyncKind], by simp [linkLoop, hu]⟩
      | some l =>
        obtain ⟨evs, h1, h2, h3⟩ := ih
          { memo := Memo.markListUser w.memo l u.Id
            trace := w.trace ++ [Event.updateUserLink linkd upath]
            aborted := w.aborted }
        refine ⟨[Event.updateUserLink linkd upath] ++ evs, ?_, ?_, ?_⟩
        · simp only [linkLoop, hu]
          rw [h1]
          simp
        · intro e he
          rcases List.mem_append.mp he with he | he
          · simp at he
            subst he
            rfl
          · exact h2 e he
        · simp only [linkLoop, hu]
          rw [h3]
          rfl

theorem linkCurrent_trace (env : Env) (o : Collab) (lid : Option Int) (u : User)
    (pe : UserEntity) (w : Worker) :
    ∃ evs, (linkCurrent env o lid u pe w).trace = w.trace ++ evs ∧
      (∀ e ∈ evs, e.isSyncKind = false) ∧
      (linkCurrent env o lid u pe w).memo.syncedUsers = w.memo.syncedUsers := by
  cases lid with
  | none => exact ⟨[], by simp [linkCurrent], by simp, rfl⟩
  | some l =>
    by_cases hh : w.memo.listHas l u.Id = true
    · exact ⟨[], by simp [linkCurrent, hh], by simp, by simp [linkCurrent, hh]⟩
    · cases h1 : o.curlinkPath with
      | error e =>
        exact ⟨_, by simp only [linkCurrent, hh, h1]; rfl, by simp [Event.isSyncKind],
          by simp [linkCurrent, hh, h1, Memo.markListUser]⟩
      | ok linkpath =>
        cases h2 : o.CreateLink with
        | error e =>
          exact ⟨_, by simp only [linkCurrent, hh, h1, h2]; rfl, by simp [Event.isSyncKind],
            by simp [linkCurrent, hh, h1, h2, Memo.markListUser]⟩
        | ok v =>
          cases h3 : o.CreateUserLink with
          | error e =>
            exact ⟨_, by simp only [linkCurrent, hh, h1, h2, h3]; rfl, by simp [Event.isSyncKind],
              by simp [linkCurrent, hh, h1, h2, h3, Memo.markListUser]⟩
          | ok v2 =>
            exact ⟨_, by simp only [linkCurrent, hh, h1, h2, h3]; rfl, by simp [Event.isSyncKind],
              by simp [linkCurrent, hh, h1, h2, h3, Memo.markListUser]⟩

theorem dedupInv_extend (A : Nat) (p : Event → Bool)
    (hk : ∀ e, p e = true → e.isSyncKind = true) (w w2 : Worker) (evs : List Event)
    (ht : w2.trace = w.trace ++ evs) (he : ∀ e ∈ evs, e.isSyncKind = false)
    (hm : w2.memo.syncedUsers = w.memo.syncedUsers) (h : dedupInv A p w) :
    dedupInv A p w2 := by
  unfold dedupInv at *
  rw [ht, hm, List.countP_append, List.countP_append,
    countP_zero_of_not_syncKind p hk evs he,
    countP_zero_of_not_syncKind _ (isSyncFailed_syncKind A) evs he]
  simpa using h

theorem syncUser_counts (o : Collab) (u : User) (A : Nat) :
    (syncUser o u).1.countP (Event.isUpsert A) ≤ 1 ∧
    (syncUser o u).1.countP (Event.isLocate A) = 0 ∧
    (syncUser o u).1.countP (Event.isCreate A) = 0 ∧
    (syncUser o u).1.countP (Event.isSyncFailed A) = 0 ∧
    (u.Id ≠ A → (syncUser o u).1.countP (Event.isUpsert A) = 0) := by
  unfold syncUser
  cases o.GetUserById with
  | error e =>
    simp [List.countP_cons, Event.isUpsert, Event.isLocate, Event.isCreate, Event.isSyncFailed]
  | ok found =>
    cases found <;>
      simp [List.countP_cons, Event.isUpsert, Event.isLocate, Event.isCreate,
        Event.isSyncFailed] <;>
      split_ifs <;> simp

theorem syncUserAndEntityInDir_events (env : Env) (o : Collab) (u : User) (dir : String)
    (A : Nat) :
    ∃ tail, (syncUserAndEntityInDir env o u dir).1 = (syncUser o u).1 ++ tail ∧
      tail.countP (Event.isUpsert A) = 0 ∧
      tail.countP (Event.isLocate A) ≤ 1 ∧
      tail.countP (Event.isCreate A) ≤ 1 ∧
      tail.countP (Event.isSyncFailed A) = 0 ∧
      (u.Id ≠ A → tail.countP (Event.isLocate A) = 0 ∧ tail.countP (Event.isCreate A) = 0) := by
  unfold syncUserAndEntityInDir
  rcases syncUser o u with ⟨ev, e | v⟩
  · exact ⟨[], by simp⟩
  · rcases o.LocateUserEntityInDir with e | (_ | userdb)
    · refine ⟨[Event.LocateUserEntityInDir u.Id dir], by simp, ?_⟩
      simp [List.countP_cons, Event.isUpsert, Event.isLocate, Event.isCreate, Event.isSyncFailed]
      split_ifs <;> simp
    · refine ⟨[Event.LocateUserEntityInDir u.Id dir,
        Event.Create { Uid := u.Id, Title := env.title u, ParentDir := dir }], ?_, ?_⟩
      · cases o.Create <;> simp
      · simp [List.countP_cons, Event.isUpsert, Event.isLocate, Event.isCreate,
          Event.isSyncFailed]
        split_ifs <;> simp
    · by_cases ht : userdb.Title = env.title u
      · rcases o.Path with e | path
        · refine ⟨[Event.LocateUserEntityInDir u.Id dir], by simp [ht], ?_⟩
          simp [List.countP_cons, Event.isUpsert, Event.isLocate, Event.isCreate,
            Event.isSyncFailed]
          split_ifs <;> simp
        · refine ⟨[Event.LocateUserEntityInDir u.Id dir, Event.Mkdir path], by simp [ht], ?_⟩
          simp [List.countP_cons, Event.isUpsert, Event.isLocate, Event.isCreate,
            Event.isSyncFailed]
          split_ifs <;> simp
      · refine ⟨[Event.LocateUserEntityInDir u.Id dir, Event.Rename userdb (env.title u)], ?_, ?_⟩
        · cases o.Rename <;> simp [ht]
        · simp [List.countP_cons, Event.isUpsert, Event.isLocate, Event.isCreate,
            Event.isSyncFailed]
          split_ifs <;> simp

theorem syncUserAndEntityInDir_counts (env : Env) (o : Collab) (u : User) (dir : String)
    (A : Nat) :
    (syncUserAndEntityInDir env o u dir).1.countP (Event.isUpsert A) ≤ 1 ∧
    (syncUserAndEntityInDir env o u dir).1.countP (Event.isLocate A) ≤ 1 ∧
    (syncUserAndEntityInDir env o u dir).1.countP (Event.isCreate A) ≤ 1 ∧
    (syncUserAndEntityInDir env o u dir).1.countP (Event.isSyncFailed A) = 0 ∧
    (u.Id ≠ A →
      (syncUserAndEntityInDir env o u dir).1.countP (Event.isUpsert A) = 0 ∧
      (syncUserAndEntityInDir env o u dir).1.countP (Event.isLocate A) = 0 ∧
      (syncUserAndEntityInDir env o u dir).1.countP (Event.isCreate A) = 0) := by
  obtain ⟨tail, h, t1, t2, t3, t4, t5⟩ := syncUserAndEntityInDir_events env o u dir A
  obtain ⟨u1, u2, u3, u4, u5⟩ := syncUser_counts o u A
  rw [h]
  simp only [List.countP_append]
  refine ⟨by omega, by omega, by omega, by omega, ?_⟩
  intro hne
  have := t5 hne
  have := u5 hne
  omega

theorem syncBody_dedupInv (A : Nat) (p : Event → Bool)
    (hk : ∀ e, p e = true → e.isSyncKind = true)
    (hc : ∀ env o u dir, (syncUserAndEntityInDir env o u dir).1.countP p ≤ 1 ∧
      (u.Id ≠ A → (syncUserAndEntityInDir env o u dir).1.countP p = 0))
    (hsf : ∀ id, p (Event.syncFailed id) = false)
    (env : Env) (dir : String) (lid : Option Int) (o : Collab) (w : Worker) (u : User)
    (h : dedupInv A p w) : dedupInv A p (syncBody env dir lid o w u).1 := by
  have hf := syncUserAndEntityInDir_counts env o u dir A
  have hcu := hc env o u dir
  unfold syncBody
  cases hm : w.memo.syncedUsers u.Id with
  | some pe =>
    simp only
    obtain ⟨evs, h1, h2, h3⟩ := linkCurrent_trace env o lid u pe
      { w with trace := w.trace ++ [Event.skipped u.Id] }
    exact dedupInv_extend A p hk _ _ evs h1 h2 h3
      (dedupInv_extend A p hk w _ [Event.skipped u.Id] rfl (by simp [Event.isSyncKind]) rfl h)
  | none =>
    simp only
    rcases hs : syncUserAndEntityInDir env o u dir with ⟨ev, e | pathEntity⟩
    · rw [hs] at hf hcu
      simp only at hf hcu ⊢
      unfold dedupInv at h ⊢
      simp only [List.countP_append, List.countP_cons, List.countP_nil, hsf, Event.isSyncFailed]
      by_cases hA : u.Id = A
      · simp [hA]
        omega
      · have := hcu.2 hA
        simp [hA]
        omega
    · rw [hs] at hf hcu
      simp only at hf hcu ⊢
      have hw1 : dedupInv A p
          { w with
            memo := { w.memo with syncedUsers := store w.memo.syncedUsers u.Id pathEntity }
            trace := w.trace ++ ev ++ [Event.entityChan pathEntity, Event.GetUserLinks u.Id] } := by
        have hz : List.countP p [Event.entityChan pathEntity, Event.GetUserLinks u.Id] = 0 :=
          countP_zero_of_not_syncKind p hk _ (by simp [Event.isSyncKind])
        have hz2 : List.countP (Event.isSyncFailed A)
            [Event.entityChan pathEntity, Event.GetUserLinks u.Id] = 0 :=
          countP_zero_of_not_syncKind _ (isSyncFailed_syncKind A) _ (by simp [Event.isSyncKind])
        unfold dedupInv at h ⊢
        simp only [List.countP_append, hz, hz2]
        by_cases hA : u.Id = A
        · subst hA
          simp only [hm] at h
          simp [store]
          simp at h
          omega
        · have := hcu.2 hA
          have hst : store w.memo.syncedUsers u.Id pathEntity A = w.memo.syncedUsers A := by
            simp [store, Ne.symm hA]
          simp only [hst]
          omega
      cases o.GetUserLinks with
      | error e =>
        simp only
        exact dedupInv_extend A p hk
          { w with
            memo := { w.memo with syncedUsers := store w.memo.syncedUsers u.Id pathEntity }
            trace := w.trace ++ ev ++ [Event.entityChan pathEntity, Event.GetUserLinks u.Id] }
          _ [Event.getLinksFailed u.Id] rfl (by simp [Event.isSyncKind]) rfl hw1
      | ok linkds =>
        simp only
        obtain ⟨evs, h1, h2, h3⟩ := linkLoop_trace o lid u o.upath linkds
          { w with
            memo := { w.memo with syncedUsers := store w.memo.syncedUsers u.Id pathEntity }
            trace := w.trace ++ ev ++ [Event.entityChan pathEntity, Event.GetUserLinks u.Id] }
        have hw2 := dedupInv_extend A p hk _ _ evs h1 h2 h3 hw1
        rcases hl : linkLoop o lid u o.upath
          { w with
            memo := { w.memo with syncedUsers := store w.memo.syncedUsers u.Id pathEntity }
            trace := w.trace ++ ev ++ [Event.entityChan pathEntity, Event.GetUserLinks u.Id] }
          linkds with ⟨w2, b⟩
        rw [hl] at hw2
        cases b with
        | true => exact hw2
        | false =>
          simp only
          obtain ⟨evs2, g1, g2, g3⟩ := linkCurrent_trace env o lid u pathEntity w2
          exact dedupInv_extend A p hk _ _ evs2 g1 g2 g3 hw2

theorem userUpdaterFrom_dedupInv (A : Nat) (p : Event → Bool)
    (hk : ∀ e, p e = true → e.isSyncKind = true)
    (hc : ∀ env o u dir, (syncUserAndEntityInDir env o u dir).1.countP p ≤ 1 ∧
      (u.Id ≠ A → (syncUserAndEntityInDir env o u dir).1.countP p = 0))
    (hsf : ∀ id, p (Event.syncFailed id) = false)
    (env : Env) (dir : String) (lid : Option Int) (oracle : Nat → Collab)
    (users : List User) (i : Nat) (w : Worker) (h : dedupInv A p w) :
    dedupInv A p (userUpdaterFrom env dir lid oracle i w users) := by
  induction users generalizing i w with
  | nil => exact h
  | cons u rest ih =>
    unfold userUpdaterFrom
    by_cases ha : w.aborted = true
    · simpa [ha] using h
    · simp only [ha, if_false]
      have hb := syncBody_dedupInv A p hk hc hsf env dir lid (oracle i) w u h
      rcases hs : syncBody env dir lid (oracle i) w u with ⟨w1, b⟩
      rw [hs] at hb
      cases b with
      | true => exact hb
      | false => exact ih (i + 1) w1 hb

theorem dedupInv_bound (A : Nat) (p : Event → Bool) (w : Worker) (h : dedupInv A p w) :
    w.trace.countP p ≤ w.trace.countP (Event.isSyncFailed A) + 1 := by
  unfold dedupInv at h
  split_ifs at h <;> omega


/-! ## The claims -/

/-- C1 (probe election on an unobserved path).  Let the limiter work on `url`,
let the path have no entry, and let the distinct goroutines `g :: gs` not have
called `Check` yet.  The `Check` of `g` stores the placeholder, returns through
the initial branch without parking and without sleeping.  The `Check` calls of
`gs` that follow all park on the condition variable and none of them returns.
After that, along every schedule that contains no `Update` and no `Reset`,
each goroutine of `gs` is still parked and has not returned. -/
theorem probe_election (s : Sys) (url : URL) (g : Nat) (gs : List Nat)
    (hw : ShouldWork url = true) (hp : s.panicked = false)
    (hnone : s.rl.limiters url.Path = none)
    (hnd : (g :: gs).Nodup) (hfresh : ∀ h ∈ g :: gs, s.fresh h) :
    ∃ s1 s2, s.step (Action.check g url) = some s1 ∧
      s1.rl.limiters url.Path = some (some xRateLimit.zero) ∧
      s1.inflight = s.inflight ++ [(g, CheckResult.initialReq)] ∧
      s1.rl.waiters url.Path = s.rl.waiters url.Path ∧
      s1.now = s.now ∧
      s1.run (checksOf url gs) = some s2 ∧
      s2.rl.limiters url.Path = some (some xRateLimit.zero) ∧
      s2.rl.waiters url.Path = s.rl.waiters url.Path ++ gs ∧
      s2.inflight = s.inflight ++ [(g, CheckResult.initialReq)] ∧
      s2.now = s.now ∧
      ∀ acts s3, (∀ a ∈ acts, a.quiet = true) → s2.run acts = some s3 →
        ∀ h ∈ gs, s3.parked url.Path h := by
  have hnd2 := List.nodup_cons.mp hnd
  have hf := hfresh g (List.mem_cons_self _ _)
  obtain ⟨s1, hstep, a1, a2, a3, a4, a5, a6, a7⟩ := step_check_absent s g url hp hf.1 hw hnone
  have hf1 : ∀ h ∈ gs, s1.started.lookup h = none := by
    intro h hh
    have hne : h ≠ g := fun e => hnd2.1 (e ▸ hh)
    rw [a7, lookup_cons_ne h g url _ hne]
    exact (hfresh h (List.mem_cons_of_mem _ hh)).1
  obtain ⟨s2, h1, h2, h3, h4, h5, h6, h7, h8⟩ :=
    run_checks_not_ready gs s1 url xRateLimit.zero a6 hw a1 zero_not_ready hnd2.2 hf1
  refine ⟨s1, s2, hstep, a1, a3, a2, a5, h1, h2, ?_, h4.trans a3, h6.trans a5, ?_⟩
  · rw [h3, a2]
  · intro acts s3 hq hrun h hh
    apply parked_run acts s2 s3 url.Path h hq hrun
    have hfh := hfresh h (List.mem_cons_of_mem _ hh)
    refine ⟨?_, ?_, ?_, h8 h (Or.inr hh)⟩
    · rw [h3]; exact List.mem_append_right _ hh
    · rw [h5, a4]; exact hfh.2.1
    · intro r hm
      rw [h4, a3] at hm
      rcases List.mem_append.mp hm with hm | hm
      · exact hfh.2.2 r hm
      · simp at hm
        exact hnd2.1 (hm.1 ▸ hh)

/-- Witness of C1 on a fresh limiter with the three callers 1, 2 and 3: caller
1 is in flight as the prober, callers 2 and 3 are parked, the placeholder is
stored. -/
theorem probe_election_witness :
    ShouldWork apiUrl = true ∧ (Sys.init 0).rl.limiters apiUrl.Path = none ∧
    ((Sys.init 0).run (checksOf apiUrl [1, 2, 3])).map
        (fun s => (s.inflight, s.rl.waiters apiUrl.Path, s.rl.limiters apiUrl.Path)) =
      some ([(1, CheckResult.initialReq)], [2, 3], some (some xRateLimit.zero)) := by
  obtain ⟨s1, s2, h1, _, _, _, _, h2, h3, h4, h5, _, _⟩ :=
    probe_election (Sys.init 0) apiUrl 1 [2, 3] (by decide) rfl rfl (by decide)
      (by
        intro h _
        simp [Sys.fresh, Sys.init])
  refine ⟨by decide, rfl, ?_⟩
  have hrun : (Sys.init 0).run (checksOf apiUrl [1, 2, 3]) = some s2 := by
    show ((Sys.init 0).step (Action.check 1 apiUrl)).bind _ = _
    rw [h1]
    exact h2
  rw [hrun]
  simp only [Option.map_some', h3, h4, h5]
  rfl

/-- C2 (unique prober), evaluated on `twoProbersSchedule`.  Every `Update` and
`Reset` of the schedule is issued for a request that returned from `Check`
and is issued once.  At the end requests 4 and 5 have both returned from
`Check` through the initial branch and neither has had its `Update` or `Reset`:
two requests in flight hold probe duty at the same time. -/
theorem two_probers_in_flight :
    ((Sys.init 0).run twoProbersSchedule).map (fun s => (s.probers, s.inflight, s.panicked)) =
      some ([4, 5],
        [(4, CheckResult.initialReq), (5, CheckResult.initialReq)], false) := by
  decide

/-- C3, amended.  On a record with `Remaining ≥ 0` and `Limit > -100`, after
every call of a finite sequence of `Req` calls, at any clock readings,
`Remaining` is still `≥ 0`. -/
theorem remaining_never_negative (rl : xRateLimit) (nows : List Time) (n : Nat)
    (h0 : 0 ≤ rl.Remaining) (hl : -100 < rl.Limit) :
    0 ≤ (reqs rl (nows.take n)).Remaining :=
  reqs_Remaining_nonneg (nows.take n) rl h0 hl

/-- Witness of the amended C3 on the record with limit 300 and one request
remaining. -/
theorem remaining_never_negative_witness :
    0 ≤ lowQuota.Remaining ∧ -100 < lowQuota.Limit ∧
    0 ≤ (reqs lowQuota ([0, 5, 2000000000000].take 2)).Remaining :=
  ⟨by decide, by decide,
    remaining_never_negative lowQuota [0, 5, 2000000000000] 2 (by decide) (by decide)⟩

/-- Counterexample to C3 as stated: a ready, unexpired record with limit -100
and `Remaining = 0` has `Remaining = -1` after one `Req`, because `-100/100`
is `-1` and `0 > -1`. -/
theorem remaining_negative_for_negative_limit :
    0 ≤ negativeLimit.Remaining ∧ (negativeLimit.Req 0).2.1.Remaining = -1 ∧
    (negativeLimit.Req 0).1 = true := by
  decide

/-- C4, amended.  A `Check` that finds a ready, unexpired record whose
`Remaining` is not above `Limit/100` sleeps until `ResetTime`, leaves
`Remaining` as it is, marks the record not ready and then returns through the
final `return` of `Check`: the caller is not parked.  Every `Check` that comes
after it finds the record not ready and parks. -/
theorem exhausted_caller_returns (rl : rateLimiter) (now : Time) (g : Nat) (url : URL)
    (l : xRateLimit) (hw : ShouldWork url = true)
    (hl : rl.limiters url.Path = some (some l)) (hready : l.Ready = true)
    (hfresh : now ≤ l.ResetTime) (hlow : l.Remaining ≤ Int.tdiv l.Limit 100) :
    (rl.Check now g url).2.2 = CheckResult.startReq ∧
    (rl.Check now g url).2.1 = l.ResetTime ∧
    (rl.Check now g url).1.limiters url.Path = some (some { l with Ready := false }) ∧
    (rl.Check now g url).1.waiters url.Path = rl.waiters url.Path ∧
    ∀ (now2 : Time) (g2 : Nat),
      ((rl.Check now g url).1.Check now2 g2 url).2.2 = CheckResult.wait ∧
      ((rl.Check now g url).1.Check now2 g2 url).1.waiters url.Path =
        rl.waiters url.Path ++ [g2] := by
  have hreq : l.Req now = (false, { l with Ready := false }, l.ResetTime) := by
    unfold xRateLimit.Req
    have h1 : ¬ now > l.ResetTime := not_lt.mpr hfresh
    have h2 : ¬ l.Remaining > Int.tdiv l.Limit 100 := not_lt.mpr hlow
    simp [hready, h1, h2, max_eq_right hfresh]
  have hc : rl.Check now g url =
      ({ limiters := store rl.limiters url.Path (some { l with Ready := false })
         conds := store rl.conds url.Path (rl.waiters url.Path) }, l.ResetTime,
        CheckResult.startReq) := by
    simp [rateLimiter.Check, hw, hl, rateLimiter.checkLoop, hready, hreq]
  rw [hc]
  refine ⟨rfl, rfl, by simp, by simp [rateLimiter.waiters], ?_⟩
  intro now2 g2
  simp [rateLimiter.Check, hw, rateLimiter.checkLoop, rateLimiter.waiters]

/-- Witness of the amended C4 on the record with limit 300 and one request
remaining: the caller returns at the reset time and the next caller parks. -/
theorem exhausted_caller_returns_witness :
    ShouldWork apiUrl = true ∧ lowQuota.Ready = true ∧ (0 : Time) ≤ lowQuota.ResetTime ∧
    lowQuota.Remaining ≤ Int.tdiv lowQuota.Limit 100 ∧
    ((limiterWith "/p" (some lowQuota) []).Check 0 7 apiUrl).2.2 = CheckResult.startReq ∧
    ((limiterWith "/p" (some lowQuota) []).Check 0 7 apiUrl).2.1 = lowQuota.ResetTime :=
  ⟨by decide, by decide, by decide, by decide,
    (exhausted_caller_returns (limiterWith "/p" (some lowQuota) []) 0 7 apiUrl lowQuota
      (by decide) (by decide) (by decide) (by decide) (by decide)).1,
    (exhausted_caller_returns (limiterWith "/p" (some lowQuota) []) 0 7 apiUrl lowQuota
      (by decide) (by decide) (by decide) (by decide) (by decide)).2.1⟩

/-- Counterexample to C4 as stated: with limit 300, one request remaining and
an unexpired reset time, the caller of `Check` is not parked on the condition
variable; its call returns through the final `return`. -/
theorem exhausted_caller_does_not_wait :
    lowQuota.Ready = true ∧ (0 : Time) ≤ lowQuota.ResetTime ∧
    lowQuota.Remaining ≤ Int.tdiv lowQuota.Limit 100 ∧
    ((limiterWith "/p" (some lowQuota) []).Check 0 7 apiUrl).2.2 ≠ CheckResult.wait ∧
    ((limiterWith "/p" (some lowQuota) []).Check 0 7 apiUrl).2.2 = CheckResult.startReq ∧
    ((limiterWith "/p" (some lowQuota) []).Check 0 7 apiUrl).1.waiters "/p" = [] := by
  decide

/-- C5, amended.  On a path that `ShouldWork` accepts and whose record is not
ready, `Update` stores the result of `makeRateLimit`, empties the wait list
and wakes every parked goroutine.  That result is nil when one of the three
headers is absent or does not parse; otherwise it is the ready record with the
parsed `Limit` and `Remaining` and with `ResetTime = time.Unix(int64(t), 0)`
for the parsed seconds `t`, which is `t` seconds when `t < 2^63` and
`t - 2^64` seconds otherwise.  On a path whose record is ready or nil,
`Update` changes nothing and wakes nobody. -/
theorem observe_stores_quota (rl : rateLimiter) (resp : Response) (parked : List Nat)
    (hw : ShouldWork resp.URL = true) (hc : rl.conds resp.URL.Path = some parked) :
    (∀ l, rl.limiters resp.URL.Path = some (some l) → l.Ready = false →
      rl.Update resp = Except.ok
        ({ limiters := store rl.limiters resp.URL.Path (makeRateLimit resp)
           conds := store rl.conds resp.URL.Path [] }, parked)) ∧
    ((headerGet resp.Header "X-Rate-Limit-Limit" = "" ∨
      headerGet resp.Header "X-Rate-Limit-Remaining" = "" ∨
      headerGet resp.Header "X-Rate-Limit-Reset" = "" ∨
      Atoi (headerGet resp.Header "X-Rate-Limit-Limit") = none ∨
      Atoi (headerGet resp.Header "X-Rate-Limit-Remaining") = none ∨
      ParseUint (headerGet resp.Header "X-Rate-Limit-Reset") = none) →
      makeRateLimit resp = none) ∧
    (∀ (a b : Int) (t : Nat),
      Atoi (headerGet resp.Header "X-Rate-Limit-Limit") = some a →
      Atoi (headerGet resp.Header "X-Rate-Limit-Remaining") = some b →
      ParseUint (headerGet resp.Header "X-Rate-Limit-Reset") = some t →
      makeRateLimit resp =
        some { ResetTime := timeUnix (toInt64 t) 0, Remaining := b, Limit := a, Ready := true
               Url := resp.URL.Host ++ resp.URL.Path } ∧
      (t < 2 ^ 63 → toInt64 t = t) ∧
      (2 ^ 63 ≤ t → toInt64 t = (t : Int) - 2 ^ 64)) ∧
    ((rl.limiters resp.URL.Path = some none ∨
        ∃ l, rl.limiters resp.URL.Path = some (some l) ∧ l.Ready = true) →
      rl.Update resp = Except.ok (rl, [])) := by
  refine ⟨fun l hl hr => Update_not_ready rl resp parked l hw hc hl hr, ?_, ?_,
    fun h => Update_settled rl resp parked hw hc h⟩
  · intro h
    apply makeRateLimit_none
    rcases h with h | h | h | h | h | h
    · exact Or.inl (by rw [h]; exact Atoi_empty)
    · exact Or.inr (Or.inl (by rw [h]; exact Atoi_empty))
    · exact Or.inr (Or.inr (by rw [h]; exact ParseUint_empty))
    · exact Or.inl h
    · exact Or.inr (Or.inl h)
    · exact Or.inr (Or.inr h)
  · intro a b t ha hb ht
    exact ⟨makeRateLimit_some resp a b t ha hb ht, toInt64_small t,
      fun h => toInt64_large t h (ParseUint_lt _ t ht)⟩

/-- Witness of the amended C5: the placeholder of a path with goroutines 5 and
6 parked is replaced by the parsed record and both goroutines are woken. -/
theorem observe_stores_quota_witness :
    ShouldWork apiUrl = true ∧
    (limiterWith "/p" (some xRateLimit.zero) [5, 6]).conds "/p" = some [5, 6] ∧
    (limiterWith "/p" (some xRateLimit.zero) [5, 6]).Update
        { URL := apiUrl, Header := quota "300" "5" "1000" } =
      Except.ok
        ({ limiters := store (limiterWith "/p" (some xRateLimit.zero) [5, 6]).limiters "/p"
             (makeRateLimit { URL := apiUrl, Header := quota "300" "5" "1000" })
           conds := store (limiterWith "/p" (some xRateLimit.zero) [5, 6]).conds "/p" [] },
         [5, 6]) :=
  ⟨by decide, by decide,
    (observe_stores_quota (limiterWith "/p" (some xRateLimit.zero) [5, 6])
      { URL := apiUrl, Header := quota "300" "5" "1000" } [5, 6] (by decide) (by decide)).1
      xRateLimit.zero (by decide) (by decide)⟩

/-- Counterexample to C5 as stated: the reset header `9223372036854775808`
parses as `2^63` epoch seconds, and the record stored by `Update` has
`ResetTime = time.Unix(-2^63, 0)`, which is not epoch second `2^63`. -/
theorem observe_reset_time_wraps :
    ParseUint (headerGet farFutureResponse.Header "X-Rate-Limit-Reset") =
      some 9223372036854775808 ∧
    (storedAfterUpdate (limiterWith "/p" (some xRateLimit.zero) []) farFutureResponse "/p").map
        (Option.map xRateLimit.ResetTime) =
      some (some (timeUnix (-9223372036854775808) 0)) ∧
    timeUnix (-9223372036854775808) 0 ≠ timeUnix 9223372036854775808 0 := by
  decide

/-- C7, amended.  In the calls made by one sync worker over any feed, with any
collaborator results and any initial maps, the database upserts of account `A`,
the entity lookups for `A` and the entity creations for `A` each number at
most one more than the failed syncs of `A`: a sync is memoised only when it
succeeds, and each is done at most once when no sync of `A` fails. -/
theorem sync_once_per_success (env : Env) (dir : String) (lid : Option Int)
    (oracle : Nat → Collab) (memo : Memo) (users : List User) (A : Nat) :
    (userUpdater env dir lid oracle memo users).trace.countP (Event.isUpsert A) ≤
      (userUpdater env dir lid oracle memo users).trace.countP (Event.isSyncFailed A) + 1 ∧
    (userUpdater env dir lid oracle memo users).trace.countP (Event.isLocate A) ≤
      (userUpdater env dir lid oracle memo users).trace.countP (Event.isSyncFailed A) + 1 ∧
    (userUpdater env dir lid oracle memo users).trace.countP (Event.isCreate A) ≤
      (userUpdater env dir lid oracle memo users).trace.countP (Event.isSyncFailed A) + 1 := by
  have h0 : ∀ p, dedupInv A p { memo := memo, trace := [], aborted := false } := by
    intro p
    simp [dedupInv]
  refine ⟨?_, ?_, ?_⟩
  · apply dedupInv_bound
    exact userUpdaterFrom_dedupInv A _ (isUpsert_syncKind A)
      (fun env o u dir => ⟨(syncUserAndEntityInDir_counts env o u dir A).1,
        fun hne => ((syncUserAndEntityInDir_counts env o u dir A).2.2.2.2 hne).1⟩)
      (fun _ => rfl) env dir lid oracle users 0 _ (h0 _)
  · apply dedupInv_bound
    exact userUpdaterFrom_dedupInv A _ (isLocate_syncKind A)
      (fun env o u dir => ⟨(syncUserAndEntityInDir_counts env o u dir A).2.1,
        fun hne => ((syncUserAndEntityInDir_counts env o u dir A).2.2.2.2 hne).2.1⟩)
      (fun _ => rfl) env dir lid oracle users 0 _ (h0 _)
  · apply dedupInv_bound
    exact userUpdaterFrom_dedupInv A _ (isCreate_syncKind A)
      (fun env o u dir => ⟨(syncUserAndEntityInDir_counts env o u dir A).2.2.1,
        fun hne => ((syncUserAndEntityInDir_counts env o u dir A).2.2.2.2 hne).2.2⟩)
      (fun _ => rfl) env dir lid oracle users 0 _ (h0 _)

/-- Counterexample to C7 as stated: account 7 is fed twice and its entity
lookup fails both times after a successful upsert; the upsert and the lookup
are each performed twice. -/
theorem failed_sync_is_repeated :
    (userUpdater plainEnv "/root" none (fun _ => locateFails) Memo.empty
        [alice, alice]).trace.countP (Event.isUpsert 7) = 2 ∧
    (userUpdater plainEnv "/root" none (fun _ => locateFails) Memo.empty
        [alice, alice]).trace.countP (Event.isLocate 7) = 2 := by
  decide

/-- C8, evaluated on a failing input.  The worker is scoped to list 1, account
7 is not memoised, every collaborator succeeds, and the one recorded link to
the account belongs to list 2.  The sync succeeds and the entity is emitted,
the loop over the recorded links marks the pair (1, 7) in `syncedListUsers`,
and the worker then makes no call of `CreateLink` or `CreateUserLink`.  With
no recorded link the same input leads to both calls. -/
theorem foreign_link_suppresses_symlink :
    (Memo.empty.listHas 1 7 = false ∧ Memo.empty.syncedUsers 7 = none) ∧
    ((userUpdater plainEnv "/root" (some 1) (fun _ => allGood [linkInListTwo]) Memo.empty
        [alice]).memo.syncedUsers 7 =
      some { Uid := 7, Title := "Alice", ParentDir := "/root" }) ∧
    (userUpdater plainEnv "/root" (some 1) (fun _ => allGood [linkInListTwo]) Memo.empty
        [alice]).trace.countP Event.isLinkCreation = 0 ∧
    (userUpdater plainEnv "/root" (some 1) (fun _ => allGood [linkInListTwo]) Memo.empty
        [alice]).memo.listHas 1 7 = true ∧
    (userUpdater plainEnv "/root" (some 1) (fun _ => allGood []) Memo.empty
        [alice]).trace.filter Event.isLinkCreation =
      [Event.CreateLink "/root/alice" "/lists/one/alice",
       Event.CreateUserLink { Name := "Alice", ParentLstEntityId := 1, Uid := 7 }] := by
  decide

/-- C9, evaluated on `updateAfterResetSchedule`.  Every `Update` and `Reset`
of the schedule is issued for a request that returned from `Check`.  Before
the last step the path has no entry while request 3 is in flight, and the
`Update` of request 3 panics on its unchecked type assertion. -/
theorem update_finds_no_entry :
    ((Sys.init 0).run lostEntrySchedule).map
        (fun s => (s.rl.limiters "/p", s.inflight, s.panicked)) =
      some (none, [(3, CheckResult.startReq)], false) ∧
    ((Sys.init 0).run lostEntrySchedule).map
        (fun s => s.rl.UpdatePanics { URL := apiUrl, Header := quota "100" "2" "1000" }) =
      some true ∧
    ((Sys.init 0).run updateAfterResetSchedule).map (fun s => s.panicked) = some true := by
  decide

/-- C10, evaluated on a failing input.  The worker is not scoped to a list
(`listEntityId` is nil), account 7 is not memoised, every collaborator
succeeds and one link to the account is recorded.  The loop over the recorded
links dereferences the nil pointer: the body panics and `abort` is called.
With no recorded link the same input does not panic. -/
theorem nil_list_id_is_dereferenced :
    (syncBody plainEnv "/root" none (allGood [linkInListTwo])
        { memo := Memo.empty, trace := [], aborted := false } alice).2 = true ∧
    (userUpdater plainEnv "/root" none (fun _ => allGood [linkInListTwo]) Memo.empty
        [alice]).aborted = true ∧
    (userUpdater plainEnv "/root" none (fun _ => allGood []) Memo.empty
        [alice]).aborted = false := by
  decide

end Tmd
